import Mathlib

/-!
Shallow embedding of the rnix expression evaluator (the `Eval` type of
src/src/lib.rs together with src/src/thunk.rs, src/src/eval/operators.rs,
src/src/builtins/strings.rs, src/src/eval/builtins/strings.rs,
src/src/eval2/string.rs and src/src/builtins/sys.rs), plus proofs about it.

Modelling conventions:
- `ThunkId` is a `Nat` index into a list of thunks (the arena `Arena<Thunk>` of
  the source, which allocates append-only stable ids).
- Expression nodes are inlined (the source stores them in an append-only
  `Arena<Expr>` and never mutates them; source spans, which only feed error
  traces and path resolution, are dropped).
- `StaticScope` (Rust `HashMap<Ident, ThunkId>`) is an association list whose
  `insert` overwrites the binding of an existing key, mirroring
  `HashMap::insert`; iteration order is never semantically relevant in the
  modelled code paths.
- `PathSet` (Rust `BTreeSet<PathRef>`, the string context) is a list with a
  deduplicating union `psExtend`, mirroring `ctx.extend(..)` on a set.
- Machine integers (`i64`) are modelled as `Int`; none of the verified
  programs approach overflow. `f64` (`Value::Float`) and `Value::Path` are
  not modelled: no claim exercises them, and the match arms of the source
  that concern them are omitted rather than stubbed.
- Mutual recursion of the evaluator is realised as a fuel-indexed tower
  `interp : Nat -> Interp`: level `fuel + 1` calls only level `fuel`. Running
  out of fuel is a distinct outcome (`EvalError.outOfFuel`) that never occurs
  in any theorem below; fuel is a modelling artifact, not part of the source.
- Rust panics (failed `assert!`, `todo!`, `unwrap`) are modelled as the
  distinct error `EvalError.assertFail`, never conflated with the evaluator's
  own `bail!` errors.
-/

abbrev Ident := String

abbrev PathSet := List String

/-- Error outcomes of the evaluator. The source (src/src/lib.rs and friends)
uses `anyhow`-style string errors; each constructor below corresponds to one
family of `bail!` sites, identified by its message. -/
inductive EvalError where
  | outOfFuel
  | assertFail (msg : String)
  | referenceCycle
  | infiniteLoop
  | typeError (expected got : String)
  | unboundVariable (name : Ident)
  | missingAttribute (name : Ident)
  | assertionFailed
  | thrown (msg : String)
  | coerceError (got : String)
  | notAddable (got : String)
  | cannotCompare
  | other (msg : String)
  deriving DecidableEq, Repr

/-! ## NIX_PATH parsing (src/src/builtins/sys.rs)

Pure string processing, modelled over `List Char` (the inputs involved are
ASCII, so Rust byte indices coincide with character indices). -/

/-- The URI prefixes of `is_uri` (src/src/builtins/sys.rs lines 114-127). -/
def uriPrefixes : List (List Char) :=
  ["http://", "https://", "file://", "channel:", "channel://", "git://",
   "s3://", "ssh://"].map String.toList

/-- `is_uri`: does the string start with one of the URI schemes? -/
def isUri (s : List Char) : Bool :=
  uriPrefixes.any (fun x => x.isPrefixOf s)

/-- Indices of all occurrences of `c` in `n`, in increasing order
(Rust `n.match_indices(c)` for a one-character needle). -/
def charIndices (c : Char) (n : List Char) : List Nat :=
  (List.range n.length).filter (fun i => n.getD i ' ' == c)

/-- Index of the last occurrence of `c` (Rust `str::rfind` on a char). -/
def rfindChar (c : Char) (l : List Char) : Option Nat :=
  (charIndices c l).getLast?

/-- The slice `n[a..b]` of an (ASCII) string. -/
def sliceList (n : List Char) (a b : Nat) : List Char :=
  (n.drop a).take (b - a)

/-- One iteration of the `for (next_colon, _) in n.match_indices(':')` loop of
`parse_nix_path`. State: (collected entries, start, prev_colon). On the
URI-skip branch only `prev_colon` advances; otherwise the entry
`n[start..next_colon]` is pushed and `start` advances past the colon
(`prev_colon` is left unchanged, exactly as in the source). -/
def parseNixPathStep (n : List Char) (acc : List (List Char) × Nat × Nat)
    (nextColon : Nat) : List (List Char) × Nat × Nat :=
  let strings := acc.1
  let start := acc.2.1
  let prevColon := acc.2.2
  let skip :=
    match rfindChar '=' (sliceList n prevColon nextColon) with
    | some x => isUri (n.drop (prevColon + x + 1))
    | none => false
  if skip then (strings, start, nextColon)
  else (strings ++ [sliceList n start nextColon], nextColon + 1, prevColon)

/-- `parse_nix_path` (src/src/builtins/sys.rs lines 129-147). -/
def parseNixPath (n : List Char) : List (List Char) :=
  let r := (charIndices ':' n).foldl (parseNixPathStep n) ([], 0, 0)
  if r.2.1 < n.length then r.1 ++ [n.drop r.2.1] else r.1

/-! ## The substring builtin (src/src/builtins/strings.rs lines 10-23)

The string argument is again `List Char` (byte = char for ASCII). Rust's
panicking slice operation is modelled explicitly by `PanicOr`. -/

/-- Result of a Rust operation that can panic. -/
inductive PanicOr (α : Type) where
  | panicked
  | ok (a : α)
  deriving DecidableEq, Repr

/-- Rust `&s[a..b]`: defined when `a <= b <= s.len()`, a panic otherwise. -/
def rustSliceRange (s : List Char) (a b : Nat) : PanicOr (List Char) :=
  if a ≤ b ∧ b ≤ s.length then .ok ((s.drop a).take (b - a)) else .panicked

/-- `substring` (src/src/builtins/strings.rs lines 10-23), with its three
already-forced arguments. Negative starts are rejected; then the string is
sliced at `start..min(start + max(0, len), s.len())`, a range that Rust
slicing panics on whenever `start` exceeds the string length. The returned
string carries the original string context `ctx` (`ctx.clone()`). -/
def substring (start len : Int) (s : List Char) (ctx : PathSet) :
    Except EvalError (PanicOr (List Char × PathSet)) :=
  if start < 0 then .error (.other "first argument to substring must be >= 0")
  else
    let st := start.toNat
    let actualEnd := min (st + (max 0 len).toNat) s.length
    match rustSliceRange s st actualEnd with
    | .ok text => .ok (.ok (text, ctx))
    | .panicked => .ok .panicked

/-! ## Expressions (the syntax crate, as consumed by src/src/lib.rs) -/

/-- The binary operator tags consumed by `eval_binary`
(src/src/eval/operators.rs). -/
inductive BinOp where
  | or | and | add | sub | mul | eq | neq | leq | le | geq | ge
  | impl | update | concat

/-- Unary operator tags (`eval_unary`). -/
inductive UnOp where
  | not | negate

mutual

/-- A component of a string template (`StrPart`). -/
inductive StrPart where
  | plain (s : String)
  | quote (q : Expr)

/-- An attribute name (`AttrName`): literal, string template, or `${...}`. -/
inductive AttrName where
  | plain (i : Ident)
  | str (body : List StrPart)
  | dyn (quote : Expr)

/-- One binding of an attribute set or `let` (`Binding`). -/
inductive Binding where
  | plain (path : List AttrName) (rhs : Expr)
  | inheritB (fromE : Option Expr) (attrs : List AttrName)

/-- A declared formal argument with its optional default (`Formal` /
`FormalDef`). -/
inductive Formal where
  | mk (argName : Ident) (fallback : Option Expr)

/-- A lambda argument pattern (`LambdaArg`): a plain name, or a formals
pattern `{ a, b ? d, ... } @ name`. `call_lambda` in the source never reads
the ellipsis flag; it is carried here to make that observable. -/
inductive LambdaArg where
  | plain (name : Ident)
  | formals (args : List Formal) (ellipsis : Bool) (atName : Option Ident)

/-- Expression nodes (`Expr` of the syntax crate), restricted to the
constructors the evaluator of src/src/lib.rs handles and the claims exercise.
Path/URI/float literals are omitted (filesystem collaborators, floats). -/
inductive Expr where
  | int (n : Int)
  | str (body : List StrPart)
  | var (name : Ident)
  | lambda (arg : LambdaArg) (body : Expr)
  | app (lhs rhs : Expr)
  | attrSet (isRec : Bool) (binds : List Binding)
  | list (elems : List Expr)
  | select (lhs : Expr) (path : List AttrName) (orFallback : Option Expr)
  | letE (binds : List Binding) (body : Expr)
  | ifE (cond rhs1 rhs2 : Expr)
  | withE (env body : Expr)
  | assertE (cond body : Expr)
  | binary (op : BinOp) (lhs rhs : Expr)
  | unary (op : UnOp) (operand : Expr)
  | member (lhs : Expr) (path : List AttrName)

end

/-! ## Values, scopes, thunks (src/src/thunk.rs and the value algebra) -/

/-- `ThunkId`: a stable handle into the thunk arena. -/
abbrev ThunkId := Nat

/-- `StaticScope = HashMap<Ident, ThunkId>` as an association list. -/
abbrev StaticScope := List (Ident × ThunkId)

/-- `HashMap::get`. -/
def scopeGet (s : StaticScope) (k : Ident) : Option ThunkId :=
  match s with
  | [] => none
  | (k1, v) :: rest => if k1 = k then some v else scopeGet rest k

/-- `HashMap::insert`: overwrites the value of an existing key. -/
def scopeInsert (s : StaticScope) (k : Ident) (v : ThunkId) : StaticScope :=
  match s with
  | [] => [(k, v)]
  | (k1, v1) :: rest =>
      if k1 = k then (k, v) :: rest else (k1, v1) :: scopeInsert rest k v

/-- A scope (`Scope` in src/src/thunk.rs): lexical bindings, or a
lazily-forced attribute set (`with` environments, `let`/`rec` bodies). -/
inductive Scope where
  | dynamic (t : ThunkId)
  | static (s : StaticScope)

/-- `Context`: the persistent ordered sequence of scopes
(`Vector<Arc<Scope>>`), highest priority first. -/
abbrev Context := List Scope

/-- Modelled from the spec: `ext.rs`, which defines `Context::prepend`, is not
under src/. Per the spec (section 3, Context) `prepend` adds a scope with
higher priority than every existing one, and lookup walks the sequence in
priority order, so `prepend` adds at the front. -/
def ctxPrepend (s : Scope) (ctx : Context) : Context := s :: ctx

/-- Modelled from the spec: `ext.rs`, which defines `Context::append`, is not
under src/. Per the spec (section 3, Context) `append` adds a scope with
lower priority than every existing one (used for `with`), so it adds at the
back of the priority-ordered sequence. -/
def ctxAppend (ctx : Context) (s : Scope) : Context := ctx ++ [s]

/-- Union of string contexts: `ctx.extend(other.iter().cloned())` on a set. -/
def psExtend (acc : PathSet) (more : PathSet) : PathSet :=
  match more with
  | [] => acc
  | x :: rest => psExtend (if acc.contains x then acc else acc ++ [x]) rest

/-- The registered builtins. Modelled from the spec: the module
src/src/builtins/mod.rs that registers primops is not under src/; only
`throw` is needed by the verified programs (spec section 8, law 3, uses
`throw` as the canonical error-raising builtin). -/
inductive PrimopId where
  | throwOp

/-- The value algebra (`Value` of src/src/value.rs, whose file is not under
src/ but whose shape is pinned by the spec, section 3, and by every use in
src/src/lib.rs and src/src/eval/operators.rs). `Float` and `Path` variants
are omitted (see the header). -/
inductive Value where
  | int (n : Int)
  | bool (b : Bool)
  | null
  | string (s : String) (context : PathSet)
  | list (elems : List ThunkId)
  | attrs (a : StaticScope)
  | lambda (arg : LambdaArg) (body : Expr) (captures : Context)
  | primop (p : PrimopId)
  | ref (t : ThunkId)

/-- `Value::typename` (display names used in error messages). -/
def Value.typename : Value → String
  | .int _ => "int"
  | .bool _ => "bool"
  | .null => "null"
  | .string _ _ => "string"
  | .list _ => "list"
  | .attrs _ => "attrset"
  | .lambda _ _ _ => "lambda"
  | .primop _ => "primop"
  | .ref _ => "ref"

/-- `ThunkCell`: pending work of a thunk. -/
inductive ThunkCell where
  | expr (e : Expr) (ctx : Context)
  | apply (lhs rhs : ThunkId)
  | blackhole

/-- A thunk (`Thunk` of src/src/thunk.rs): either its pending cell or its
final value. The one-shot Cell-to-Value transition is realised by
`putValue`; `get_thunk` *clones* the cell and leaves it in place (it does not
install a blackhole). -/
inductive EvalThunk where
  | cell (c : ThunkCell)
  | value (v : Value)

/-- The mutable evaluator state: the thunk arena plus the top-level builtin
scope (`Eval.items` and `Eval.toplevel`). -/
structure EvalState where
  items : List EvalThunk
  toplevel : StaticScope

/-- The evaluation monad: state threading plus fatal errors. -/
abbrev M (α : Type) := StateT EvalState (Except EvalError) α

/-- `Arena::alloc`: append a thunk, returning its stable id. -/
def allocThunk (t : EvalThunk) : M ThunkId := do
  let st ← get
  set { st with items := st.items ++ [t] }
  pure st.items.length

/-- Read a thunk from the arena (indexing `self.items[id]`). -/
def readThunk (t : ThunkId) : M EvalThunk := do
  let st ← get
  match st.items.get? t with
  | some th => pure th
  | none => throw (.assertFail "bad thunk id")

/-- `Thunk::put_value`: install the final value. A second installation is an
assertion failure in the source ("double initialization"). -/
def putValue (t : ThunkId) (v : Value) : M Unit := do
  let st ← get
  match st.items.get? t with
  | some (.value _) => throw (.assertFail "double initialization")
  | some (.cell _) => set { st with items := st.items.set t (.value v) }
  | none => throw (.assertFail "bad thunk id")

/-- `Eval::new_value`: allocate an already-evaluated thunk. -/
def newValue (v : Value) : M ThunkId :=
  allocThunk (.value v)

/-- The `t!` shorthand of src/src/eval/operators.rs: allocate
`Thunk::thunk(expr, context.clone())`. -/
def tAlloc (x : Expr) (ctx : Context) : M ThunkId :=
  allocThunk (.cell (.expr x ctx))

/-- `Eval::synthetic_variable`: allocate a thunk evaluating a synthetic
`Expr::Var` under the given context. -/
def syntheticVariable (name : Ident) (ctx : Context) : M ThunkId :=
  allocThunk (.cell (.expr (.var name) ctx))

/-- Allocate one thunk per list element, in order (`alloc_extend` in
`Expr::List` evaluation). -/
def allocExprList (elems : List Expr) (ctx : Context) : M (List ThunkId) :=
  match elems with
  | [] => pure []
  | e :: rest => do
      let t ← tAlloc e ctx
      let r ← allocExprList rest ctx
      pure (t :: r)

/-- Discriminant comparison (`std::mem::discriminant(lhs) !=
std::mem::discriminant(rhs)` in `eval_eq`). -/
def sameDiscriminant : Value → Value → Bool
  | .int _, .int _ => true
  | .bool _, .bool _ => true
  | .null, .null => true
  | .string _ _, .string _ _ => true
  | .list _, .list _ => true
  | .attrs _, .attrs _ => true
  | .lambda _ _ _, .lambda _ _ _ => true
  | .primop _, .primop _ => true
  | .ref _, .ref _ => true
  | _, _ => false

/-- `do_sub` (src/src/eval/operators.rs lines 103-113), float arms omitted. -/
def doSub : Value → Value → Except EvalError Value
  | .int a, .int b => .ok (.int (a - b))
  | .int _, v => .error (.typeError "int" v.typename)
  | v, _ => .error (.typeError "int" v.typename)

/-- `less_than` (src/src/eval/operators.rs lines 221-231), float and path
arms omitted. -/
def lessThan : Value → Value → Except EvalError Bool
  | .int a, .int b => .ok (decide (a < b))
  | .string s1 _, .string s2 _ => .ok (decide (s1 < s2))
  | _, _ => .error .cannotCompare

/-! ## The evaluator (src/src/lib.rs, src/src/eval/operators.rs,
src/src/builtins/strings.rs, src/src/eval2/string.rs)

The mutually recursive functions of `impl Eval` are packaged as the fields of
`Interp`; `interp (fuel + 1)` defines each field in terms of the fields of
`interp fuel`, so the whole tower is structurally recursive on fuel and every
run of a concrete program reduces definitionally. -/

structure Interp where
  valueOf : ThunkId → List ThunkId → M (ThunkId × Value)
  stepThunk : ThunkCell → M Value
  stepEval : Expr → Context → M Value
  stepFn : ThunkId → ThunkId → M Value
  callLambda : LambdaArg → Expr → Option ThunkId → Context → M Value
  bindFormals : List Formal → StaticScope → StaticScope → ThunkId → Context →
    M StaticScope
  attrname : AttrName → Context → M Ident
  strParts : List StrPart → Context → String → PathSet → M (String × PathSet)
  lookupVar : List Scope → Ident → M (Option ThunkId)
  valueBoolOf : ThunkId → M Bool
  valueStrOf : ThunkId → M (String × PathSet)
  valueAttrsOf : ThunkId → M StaticScope
  valueListOf : ThunkId → M (List ThunkId)
  valueIntOf : ThunkId → M Int
  sel : ThunkId → Ident → M (Option ThunkId)
  selWalk : ThunkId → List AttrName → Context → M (Sum ThunkId Ident)
  buildAttrs : Bool → List Binding → ThunkId → Context → M Unit
  bindingsFold : List Binding → Context → Context → StaticScope → M StaticScope
  pushBinding : StaticScope → List AttrName → Expr → Context → M StaticScope
  pushInherit : StaticScope → Option Expr → List AttrName → Context →
    M StaticScope
  inheritFold : StaticScope → Context → List AttrName → Context → M StaticScope
  evalBinary : BinOp → Expr → Expr → Context → M Value
  evalUnary : UnOp → Expr → Context → M Value
  evalEq : ThunkId → ThunkId → M Bool
  evalEqList : List ThunkId → List ThunkId → M Bool
  evalEqAttrs : StaticScope → StaticScope → M Bool
  plusOp : ThunkId → ThunkId → M Value
  concatStrings : ThunkId → ThunkId → M Value
  coerceToString : ThunkId → Bool → Bool → PathSet → M (String × PathSet)
  coerceFold : List ThunkId → Bool → Bool → PathSet → String → Bool →
    M (String × PathSet)
  coerceToStringE2 : ThunkId → Bool → Bool → PathSet → M (String × PathSet)
  coerceFoldE2 : List ThunkId → Bool → Bool → PathSet → String → Bool →
    M (String × PathSet)
  runPrimop : PrimopId → ThunkId → M Value

/-- The fuel-exhausted interpreter: every operation reports `outOfFuel`. -/
def interpZero : Interp where
  valueOf := fun _ _ => throw .outOfFuel
  stepThunk := fun _ => throw .outOfFuel
  stepEval := fun _ _ => throw .outOfFuel
  stepFn := fun _ _ => throw .outOfFuel
  callLambda := fun _ _ _ _ => throw .outOfFuel
  bindFormals := fun _ _ _ _ _ => throw .outOfFuel
  attrname := fun _ _ => throw .outOfFuel
  strParts := fun _ _ _ _ => throw .outOfFuel
  lookupVar := fun _ _ => throw .outOfFuel
  valueBoolOf := fun _ => throw .outOfFuel
  valueStrOf := fun _ => throw .outOfFuel
  valueAttrsOf := fun _ => throw .outOfFuel
  valueListOf := fun _ => throw .outOfFuel
  valueIntOf := fun _ => throw .outOfFuel
  sel := fun _ _ => throw .outOfFuel
  selWalk := fun _ _ _ => throw .outOfFuel
  buildAttrs := fun _ _ _ _ => throw .outOfFuel
  bindingsFold := fun _ _ _ _ => throw .outOfFuel
  pushBinding := fun _ _ _ _ => throw .outOfFuel
  pushInherit := fun _ _ _ _ => throw .outOfFuel
  inheritFold := fun _ _ _ _ => throw .outOfFuel
  evalBinary := fun _ _ _ _ => throw .outOfFuel
  evalUnary := fun _ _ _ => throw .outOfFuel
  evalEq := fun _ _ => throw .outOfFuel
  evalEqList := fun _ _ => throw .outOfFuel
  evalEqAttrs := fun _ _ => throw .outOfFuel
  plusOp := fun _ _ => throw .outOfFuel
  concatStrings := fun _ _ => throw .outOfFuel
  coerceToString := fun _ _ _ _ => throw .outOfFuel
  coerceFold := fun _ _ _ _ _ _ => throw .outOfFuel
  coerceToStringE2 := fun _ _ _ _ => throw .outOfFuel
  coerceFoldE2 := fun _ _ _ _ _ _ => throw .outOfFuel
  runPrimop := fun _ _ => throw .outOfFuel

def interp : Nat → Interp
  | 0 => interpZero
  | fuel + 1 =>
    let p := interp fuel
    { -- `Eval::value_of` (src/src/lib.rs lines 145-167): force a thunk,
      -- following `Value::Ref` chains with a visited set; a repeated id is
      -- the "reference cycle" failure. `get_thunk` clones the pending cell
      -- (leaving it in place, no blackhole installation), `step_thunk` runs
      -- it, `put_value` installs the result.
      valueOf := fun t visited => do
        let thk ← readThunk t
        let v ← match thk with
          | .value v => pure v
          | .cell c => do
              let v ← p.stepThunk c
              putValue t v
              pure v
        match v with
        | .ref r =>
            if visited.contains r then throw .referenceCycle
            else p.valueOf r (r :: visited)
        | v => pure (t, v)
      -- `Eval::step_thunk` (src/src/lib.rs lines 227-233): a blackhole cell
      -- is the "infinite loop" failure.
      stepThunk := fun c =>
        match c with
        | .expr e ctx => p.stepEval e ctx
        | .apply lhs rhs => p.stepFn lhs rhs
        | .blackhole => throw .infiniteLoop
      -- `Eval::step_eval_impl` (src/src/lib.rs lines 241-398).
      stepEval := fun e ctx => do
        match e with
        | .int n => pure (.int n)
        | .str body => do
            let (s, pset) ← p.strParts body ctx "" []
            pure (.string s pset)
        | .var name => do
            match ← p.lookupVar ctx name with
            | some v => pure (.ref v)
            | none => do
                let st ← get
                match scopeGet st.toplevel name with
                | some x => pure (.ref x)
                | none => throw (.unboundVariable name)
        | .lambda arg body => pure (.lambda arg body ctx)
        | .app lhs rhs => do
            let lt ← tAlloc lhs ctx
            let rt ← tAlloc rhs ctx
            let ap ← allocThunk (.cell (.apply lt rt))
            pure (.ref ap)
        | .attrSet isRec binds => do
            let newAttrs ← allocThunk (.cell .blackhole)
            p.buildAttrs isRec binds newAttrs ctx
            pure (.ref newAttrs)
        | .list elems => do
            let ids ← allocExprList elems ctx
            pure (.list ids)
        | .select lhs path orFallback => do
            let lt ← tAlloc lhs ctx
            match ← p.selWalk lt path ctx with
            | .inl final => pure (.ref final)
            | .inr failedName =>
                match orFallback with
                | some o => p.stepEval o ctx
                | none => throw (.missingAttribute failedName)
        | .letE binds body => do
            let bindings ← allocThunk (.cell .blackhole)
            p.buildAttrs true binds bindings ctx
            p.stepEval body (ctxPrepend (.dynamic bindings) ctx)
        | .ifE cond rhs1 rhs2 => do
            let ct ← tAlloc cond ctx
            if ← p.valueBoolOf ct then p.stepEval rhs1 ctx
            else p.stepEval rhs2 ctx
        | .withE env body => do
            let ws ← tAlloc env ctx
            -- "XXX: with scope is checked *after* every other scope"
            p.stepEval body (ctxAppend ctx (.dynamic ws))
        | .assertE cond body => do
            let ct ← tAlloc cond ctx
            if ← p.valueBoolOf ct then p.stepEval body ctx
            else throw .assertionFailed
        | .binary op lhs rhs => p.evalBinary op lhs rhs ctx
        | .unary op operand => p.evalUnary op operand ctx
        | .member lhs path => do
            let lt ← tAlloc lhs ctx
            match ← p.selWalk lt path ctx with
            | .inl _ => pure (.bool true)
            | .inr _ => pure (.bool false)
      -- `Eval::step_fn` (src/src/lib.rs lines 400-414); the fall-through is
      -- `todo!("not a lambda")`, a panic.
      stepFn := fun lhs rhs => do
        match (← p.valueOf lhs [lhs]).2 with
        | .lambda arg body captures => p.callLambda arg body (some rhs) captures
        | .primop op => p.runPrimop op rhs
        | _ => throw (.assertFail "not a lambda")
      -- `Eval::call_lambda` (src/src/lib.rs lines 416-472). Note: the
      -- formals branch reads only the declared formals and the @-binder; the
      -- ellipsis flag and any extra keys of the argument set are never
      -- consulted.
      callLambda := fun arg body rhs ctx => do
        match arg with
        | .plain a => do
            let tid ← match rhs with
              | some tid => pure tid
              | none =>
                  throw (.other "trying to autocall a lambda with a plain argument")
            p.stepEval body (ctxPrepend (.static (scopeInsert [] a tid)) ctx)
        | .formals args _ellipsis atName => do
            let fnArgThunk ← match rhs with
              | some tid => pure tid
              | none => newValue (.attrs [])
            let fnArgument ← p.valueAttrsOf fnArgThunk
            let fnScopeId ← allocThunk (.cell .blackhole)
            let s1 ← p.bindFormals args fnArgument [] fnScopeId ctx
            let fnBodyScope := match atName with
              | some nm => scopeInsert s1 nm fnArgThunk
              | none => s1
            putValue fnScopeId (.attrs fnBodyScope)
            p.stepEval body (ctxPrepend (.static fnBodyScope) ctx)
      -- The `for arg in &fs.args` loop of `call_lambda`: a declared formal
      -- takes the argument's thunk if present, else its default evaluated
      -- under the in-progress formal scope; a missing formal without default
      -- is the bail "Oh no".
      bindFormals := fun formals fnArgument acc fnScopeId ctx => do
        match formals with
        | [] => pure acc
        | .mk name fallback :: rest => do
            let acc2 ← match scopeGet fnArgument name with
              | none =>
                  match fallback with
                  | some dflt => do
                      let defArg ← allocThunk (.cell (.expr dflt
                        (ctxPrepend (.dynamic fnScopeId) ctx)))
                      pure (scopeInsert acc name defArg)
                  | none => throw (.other "Oh no")
              | some tid => pure (scopeInsert acc name tid)
            p.bindFormals rest fnArgument acc2 fnScopeId ctx
      -- `Eval::attrname` (src/src/lib.rs lines 474-497); the template and
      -- dynamic cases force to a string and drop its context.
      attrname := fun a ctx => do
        match a with
        | .plain pname => pure pname
        | .str body => do
            let (buf, _) ← p.strParts body ctx "" []
            pure buf
        | .dyn q => do
            let t ← tAlloc q ctx
            let (s, _) ← p.valueStrOf t
            pure s
      -- The string-template loop of `Expr::Str` evaluation: concatenate
      -- plain parts and forced interpolations, accumulating string context.
      strParts := fun body ctx buf pset => do
        match body with
        | [] => pure (buf, pset)
        | .plain s :: rest => p.strParts rest ctx (buf ++ s) pset
        | .quote q :: rest => do
            let t ← tAlloc q ctx
            let (contents, paths) ← p.valueStrOf t
            p.strParts rest ctx (buf ++ contents) (psExtend pset paths)
      -- The `for item in &context` loop of `Expr::Var` evaluation: walk the
      -- scopes in priority order; forcing a dynamic scope to an attribute
      -- set propagates its errors; absence of the name is not an error.
      lookupVar := fun scopes name => do
        match scopes with
        | [] => pure none
        | item :: rest => do
            let s ← match item with
              | .static s1 => pure s1
              | .dynamic t => p.valueAttrsOf t
            match scopeGet s name with
            | some v => pure (some v)
            | none => p.lookupVar rest name
      -- `Eval::value_bool_of` and friends (src/src/lib.rs lines 169-213).
      valueBoolOf := fun t => do
        match (← p.valueOf t [t]).2 with
        | .bool b => pure b
        | v => throw (.typeError "bool" v.typename)
      valueStrOf := fun t => do
        match (← p.valueOf t [t]).2 with
        | .string s c => pure (s, c)
        | v => throw (.typeError "string" v.typename)
      valueAttrsOf := fun t => do
        match (← p.valueOf t [t]).2 with
        | .attrs s => pure s
        | v => throw (.typeError "attrset" v.typename)
      valueListOf := fun t => do
        match (← p.valueOf t [t]).2 with
        | .list l => pure l
        | v => throw (.typeError "list" v.typename)
      valueIntOf := fun t => do
        match (← p.valueOf t [t]).2 with
        | .int n => pure n
        | v => throw (.typeError "int" v.typename)
      -- `Eval::sel` (src/src/lib.rs lines 499-504): an attribute set without
      -- the key, and any non-attrset value, are both a `None` miss.
      sel := fun lhs name => do
        match (← p.valueOf lhs [lhs]).2 with
        | .attrs hs => pure (scopeGet hs name)
        | _ => pure none
      -- The path-walking loop shared by `Expr::Select` and `Expr::Member`:
      -- stop at the first missing component, reporting its name.
      selWalk := fun t path ctx => do
        match path with
        | [] => pure (.inl t)
        | pathItem :: rest => do
            let name ← p.attrname pathItem ctx
            match ← p.sel t name with
            | some next => p.selWalk next rest ctx
            | none => pure (.inr name)
      -- `Eval::build_attrs` (src/src/lib.rs lines 506-536).
      buildAttrs := fun recursive bindings into ctx => do
        let recursiveScope :=
          if recursive then ctxPrepend (.dynamic into) ctx else ctx
        let binds ← p.bindingsFold bindings recursiveScope ctx []
        putValue into (.attrs binds)
      -- The `for b in bindings` loop of `build_attrs`: plain bindings are
      -- pushed under the recursive scope, inherits under the outer context.
      bindingsFold := fun bindings recScope ctx acc => do
        match bindings with
        | [] => pure acc
        | .plain path rhs :: rest => do
            let acc2 ← p.pushBinding acc path rhs recScope
            p.bindingsFold rest recScope ctx acc2
        | .inheritB fromE attrs :: rest => do
            let acc2 ← p.pushInherit acc fromE attrs ctx
            p.bindingsFold rest recScope ctx acc2
      -- `Eval::push_binding` (src/src/lib.rs lines 538-559): `insert` into
      -- the scope, overwriting any earlier binding of the same name; nested
      -- paths merge into an existing intermediate attribute set.
      pushBinding := fun scope names rhs ctx => do
        match names with
        | [] => throw (.assertFail "empty attr path")
        | key1 :: keyrest => do
            let k ← p.attrname key1 ctx
            let childItem ←
              if keyrest.isEmpty then tAlloc rhs ctx
              else do
                let nextScope ← match scopeGet scope k with
                  | some i => p.valueAttrsOf i
                  | none => pure []
                let ns ← p.pushBinding nextScope keyrest rhs ctx
                newValue (.attrs ns)
            pure (scopeInsert scope k childItem)
      -- `Eval::push_inherit` (src/src/lib.rs lines 561-582).
      pushInherit := fun scope fromE attrs ctx => do
        let bindingScope ← match fromE with
          | some ih => do
              let t ← tAlloc ih ctx
              pure ([Scope.dynamic t] : Context)
          | none => pure ctx
        p.inheritFold scope bindingScope attrs ctx
      inheritFold := fun scope bindingScope attrs ctx => do
        match attrs with
        | [] => pure scope
        | attr :: rest => do
            let name ← p.attrname attr ctx
            let t ← syntheticVariable name bindingScope
            p.inheritFold (scopeInsert scope name t) bindingScope rest ctx
      -- `eval_binary` (src/src/eval/operators.rs lines 14-101).
      evalBinary := fun op lhs rhs ctx => do
        match op with
        | .or => do
            if ← p.valueBoolOf (← tAlloc lhs ctx) then pure (.bool true)
            else p.stepEval rhs ctx
        | .and => do
            if ← p.valueBoolOf (← tAlloc lhs ctx) then p.stepEval rhs ctx
            else pure (.bool false)
        | .add => do
            let lt ← tAlloc lhs ctx
            let rt ← tAlloc rhs ctx
            p.plusOp lt rt
        | .sub => do
            let lt ← tAlloc lhs ctx
            let (_, v1) ← p.valueOf lt [lt]
            let rt ← tAlloc rhs ctx
            let (_, v2) ← p.valueOf rt [rt]
            liftM (doSub v1 v2)
        | .mul => do
            let lt ← tAlloc lhs ctx
            let (_, v1) ← p.valueOf lt [lt]
            let rt ← tAlloc rhs ctx
            let (_, v2) ← p.valueOf rt [rt]
            match v1, v2 with
            | .int a, .int b => pure (.int (a * b))
            | a, _ => throw (.notAddable a.typename)
        | .eq => do
            let lt ← tAlloc lhs ctx
            let rt ← tAlloc rhs ctx
            pure (.bool (← p.evalEq lt rt))
        | .neq => do
            let lt ← tAlloc lhs ctx
            let rt ← tAlloc rhs ctx
            pure (.bool (!(← p.evalEq lt rt)))
        | .leq => do
            let lt ← tAlloc lhs ctx
            let (_, v1) ← p.valueOf lt [lt]
            let rt ← tAlloc rhs ctx
            let (_, v2) ← p.valueOf rt [rt]
            pure (.bool (!(← liftM (lessThan v2 v1))))
        | .le => do
            let lt ← tAlloc lhs ctx
            let (_, v1) ← p.valueOf lt [lt]
            let rt ← tAlloc rhs ctx
            let (_, v2) ← p.valueOf rt [rt]
            pure (.bool (← liftM (lessThan v1 v2)))
        | .geq => do
            let lt ← tAlloc lhs ctx
            let (_, v1) ← p.valueOf lt [lt]
            let rt ← tAlloc rhs ctx
            let (_, v2) ← p.valueOf rt [rt]
            pure (.bool (!(← liftM (lessThan v1 v2))))
        | .ge => do
            let lt ← tAlloc lhs ctx
            let (_, v1) ← p.valueOf lt [lt]
            let rt ← tAlloc rhs ctx
            let (_, v2) ← p.valueOf rt [rt]
            pure (.bool (← liftM (lessThan v2 v1)))
        | .impl => do
            let b1 ← p.valueBoolOf (← tAlloc lhs ctx)
            if !b1 then pure (.bool true)
            else pure (.bool (← p.valueBoolOf (← tAlloc rhs ctx)))
        | .update => do
            let l ← p.valueAttrsOf (← tAlloc lhs ctx)
            let r ← p.valueAttrsOf (← tAlloc rhs ctx)
            pure (.attrs (r.foldl (fun acc kv => scopeInsert acc kv.1 kv.2) l))
        | .concat => do
            let l ← p.valueListOf (← tAlloc lhs ctx)
            let r ← p.valueListOf (← tAlloc rhs ctx)
            pure (.list (l ++ r))
      -- `eval_unary` (src/src/eval/operators.rs lines 187-197): negation is
      -- `do_sub(0, x)`.
      evalUnary := fun op operand ctx => do
        match op with
        | .not => pure (.bool (!(← p.valueBoolOf (← tAlloc operand ctx))))
        | .negate => do
            let t ← tAlloc operand ctx
            let (_, v) ← p.valueOf t [t]
            liftM (doSub (.int 0) v)
      -- `eval_eq` (src/src/eval/operators.rs lines 115-185). The first test
      -- compares the two forced values by pointer (`lhs as *const _ == rhs as
      -- *const _`); since `value_of` returns a reference into the cell of the
      -- final thunk of the Ref chain, pointer equality is equality of those
      -- final thunk ids. Int/Float cross-comparison is omitted with Float.
      evalEq := fun lt rt => do
        let (i1, v1) ← p.valueOf lt [lt]
        let (i2, v2) ← p.valueOf rt [rt]
        if i1 = i2 then pure true
        else if !sameDiscriminant v1 v2 then pure false
        else
          match v1, v2 with
          | .int a, .int b => pure (decide (a = b))
          | .string s1 _, .string s2 _ => pure (decide (s1 = s2))
          | .null, _ => pure true
          | .bool a, .bool b => pure (a == b)
          | .list l1, .list l2 =>
              if l1.length ≠ l2.length then pure false
              else p.evalEqList l1 l2
          | .attrs a1, .attrs a2 => do
              -- if both are derivations, compare their `outPath` thunk ids
              match scopeGet a1 "outPath", scopeGet a2 "outPath" with
              | some o1, some o2 => pure (o1 = o2)
              | _, _ =>
                  if a1.length ≠ a2.length then pure false
                  else p.evalEqAttrs a1 a2
          | .lambda _ _ _, _ => pure false
          | .primop _, _ => pure false
          | _, _ => throw .cannotCompare
      evalEqList := fun l1 l2 => do
        match l1, l2 with
        | [], _ => pure true
        | _, [] => pure true
        | x :: xs, y :: ys => do
            if ← p.evalEq x y then p.evalEqList xs ys else pure false
      evalEqAttrs := fun a1 a2 => do
        match a1 with
        | [] => pure true
        | (k, v) :: rest => do
            match scopeGet a2 k with
            | some v2 =>
                if ← p.evalEq v v2 then p.evalEqAttrs rest a2 else pure false
            | none => pure false
      -- `plus_operator` (src/src/eval/operators.rs lines 199-219), Path and
      -- Float arms omitted; a non-numeric left operand falls through to
      -- string concatenation.
      plusOp := fun lt rt => do
        match (← p.valueOf lt [lt]).2 with
        | .int i => do
            match (← p.valueOf rt [rt]).2 with
            | .int i2 => pure (.int (i + i2))
            | v => throw (.notAddable v.typename)
        | _ => p.concatStrings lt rt
      -- `concat_strings` (src/src/eval/operators.rs lines 233-277), the
      -- Path arms omitted: coerce both sides (copy_to_store iff the left
      -- operand is a string) into one buffer, accumulating one context.
      concatStrings := fun lt rt => do
        let (_, v1) ← p.valueOf lt [lt]
        let _ ← p.valueOf rt [rt]
        let lhsIsString := match v1 with
          | .string _ _ => true
          | _ => false
        let (s1, c1) ← p.coerceToString lt false lhsIsString []
        let (s2, c2) ← p.coerceToString rt false lhsIsString c1
        pure (.string (s1 ++ s2) c2)
      -- `coerce_to_string` of the main evaluator (src/src/builtins/strings.rs
      -- lines 33-66, identically src/src/eval/builtins/strings.rs lines
      -- 50-84, whose extra copy_to_store flag is only passed along). There is
      -- no attribute-set arm: every attribute set, with or without an
      -- `outPath` attribute, falls to the type-named failure.
      coerceToString := fun t extended copyToStore acc => do
        match (← p.valueOf t [t]).2 with
        | .string s sctx => pure (s, psExtend acc sctx)
        | .int i => pure (toString i, acc)
        | .bool b =>
            if extended then pure ((if b then "1" else ""), acc)
            else throw (.coerceError "bool")
        | .list items =>
            if extended then p.coerceFold items extended copyToStore acc "" true
            else throw (.coerceError "list")
        | v => throw (.coerceError v.typename)
      coerceFold := fun items extended copyToStore acc buf first => do
        match items with
        | [] => pure (buf, acc)
        | x :: rest => do
            let buf2 := if first then buf else buf ++ " "
            let (s, acc2) ← p.coerceToString x extended copyToStore acc
            p.coerceFold rest extended copyToStore acc2 (buf2 ++ s) false
      -- `Eval::coerce_to_string` of the eval2 evaluator
      -- (src/src/eval2/string.rs lines 35-81), Path arm omitted: this is the
      -- only coercion with an attribute-set arm, recursing into `outPath`.
      coerceToStringE2 := fun t extended copyToStore acc => do
        match (← p.valueOf t [t]).2 with
        | .string s sctx => pure (s, psExtend acc sctx)
        | .int i => pure (toString i, acc)
        | .bool b =>
            if extended then pure ((if b then "1" else ""), acc)
            else throw (.coerceError "bool")
        | .null =>
            if extended then pure ("", acc)
            else throw (.coerceError "null")
        | .list items =>
            if extended then
              p.coerceFoldE2 items extended copyToStore acc "" true
            else throw (.coerceError "list")
        | .attrs a => do
            match scopeGet a "outPath" with
            | some o => p.coerceToStringE2 o extended copyToStore acc
            | none =>
                throw (.other
                  "cannot coerce a set to a string unless it has an outPath attribute")
        | v => throw (.coerceError v.typename)
      coerceFoldE2 := fun items extended copyToStore acc buf first => do
        match items with
        | [] => pure (buf, acc)
        | x :: rest => do
            let buf2 := if first then buf else buf ++ " "
            let (s, acc2) ← p.coerceToStringE2 x extended copyToStore acc
            p.coerceFoldE2 rest extended copyToStore acc2 (buf2 ++ s) false
      -- Modelled from the spec: the primop registry (src/src/builtins/mod.rs)
      -- is not under src/. `throw` forces its argument to a string and fails
      -- with it (spec sections 7 and 8: primops force their own arguments;
      -- law 3 uses `throw` as the error-raising builtin).
      runPrimop := fun pid arg => do
        match pid with
        | .throwOp => do
            let (msg, _) ← p.valueStrOf arg
            throw (.thrown msg) }

/-! ## Running programs -/

/-- The initial evaluator state. Modelled from the spec: `with_config` runs
the primop registration (src/src/builtins/mod.rs, not under src/), which
seeds the top-level static scope; only the `throw` builtin is needed here. -/
def initState : EvalState :=
  { items := [EvalThunk.value (.primop .throwOp)]
    toplevel := [("throw", 0)] }

/-- `load_inline` followed by `value_of`: allocate a root thunk for the
expression under the empty context and force it. Returns the final thunk id,
the forced value, and the final arena. -/
def runInline (fuel : Nat) (e : Expr) :
    Except EvalError ((ThunkId × Value) × EvalState) :=
  ((do
    let t ← allocThunk (.cell (.expr e []))
    (interp fuel).valueOf t [t]) : M (ThunkId × Value)).run initState

/-- The forced value of a program (what `value_of` returns). -/
def evalV (fuel : Nat) (e : Expr) : Except EvalError Value :=
  (runInline fuel e).map (fun r => r.1.2)

/-- Force a program to a list and return its length, without forcing any
element. -/
def evalListLen (fuel : Nat) (e : Expr) : Except EvalError Nat :=
  match runInline fuel e with
  | .ok ((_, .list ts), _) => .ok ts.length
  | .ok _ => .error (.typeError "list" "other")
  | .error er => .error er

/-- Force a program to a list, then force its `i`-th element in the resulting
arena. -/
def evalListElem (fuel : Nat) (e : Expr) (i : Nat) : Except EvalError Value :=
  match runInline fuel e with
  | .ok ((_, .list ts), st) =>
      match ts.get? i with
      | some t => (((interp fuel).valueOf t [t]).run st).map (fun r => r.1.2)
      | none => .error (.typeError "list" "short")
  | .ok _ => .error (.typeError "list" "other")
  | .error er => .error er

/-- Run the main evaluator's `coerce_to_string` on thunk `t` in state `st`. -/
def coerceMainIn (fuel : Nat) (st : EvalState) (t : ThunkId)
    (extended copyToStore : Bool) : Except EvalError (String × PathSet) :=
  (((interp fuel).coerceToString t extended copyToStore []).run st).map
    Prod.fst

/-- Run the eval2 `Eval::coerce_to_string` on thunk `t` in state `st`. -/
def coerceE2In (fuel : Nat) (st : EvalState) (t : ThunkId)
    (extended copyToStore : Bool) : Except EvalError (String × PathSet) :=
  (((interp fuel).coerceToStringE2 t extended copyToStore []).run st).map
    Prod.fst

/-! ## The concrete programs of the claims -/

/-- Shorthand: an attribute set literal of plain scalar bindings. -/
def attrsLit (kvs : List (Ident × Expr)) : Expr :=
  .attrSet false (kvs.map (fun kv => .plain [.plain kv.1] kv.2))

/-- `with { a = 1; }; with { a = 2; }; a` -/
def progWithWith : Expr :=
  .withE (attrsLit [("a", .int 1)])
    (.withE (attrsLit [("a", .int 2)]) (.var "a"))

/-- `let a = 1; in with { a = 2; }; a` -/
def progLetWith : Expr :=
  .letE [.plain [.plain "a"] (.int 1)]
    (.withE (attrsLit [("a", .int 2)]) (.var "a"))

/-- `throw "bang"` -/
def progThrowBang : Expr :=
  .app (.var "throw") (.str [.plain "bang"])

/-- `let x = throw "bang"; in 1` -/
def progLazyLet : Expr :=
  .letE [.plain [.plain "x"] progThrowBang] (.int 1)

/-- `(x: 1) (throw "bang")` -/
def progLazyApply : Expr :=
  .app (.lambda (.plain "x") (.int 1)) progThrowBang

/-- `[ (throw "a") 2 ]` -/
def progLazyList : Expr :=
  .list [.app (.var "throw") (.str [.plain "a"]), .int 2]

/-- `let x = x; in x` -/
def progSelfLet : Expr :=
  .letE [.plain [.plain "x"] (.var "x")] (.var "x")

/-- `({ a }: a) { a = 1; b = n; }` — a formals pattern without ellipsis
applied to a set with the extra key `b`. -/
def progExtraArg (n : Int) : Expr :=
  .app (.lambda (.formals [.mk "a" none] false none) (.var "a"))
    (attrsLit [("a", .int 1), ("b", .int n)])

/-- `let a = 1; a = 2; in a` — the same name bound twice at one level. -/
def progDupLet : Expr :=
  .letE [.plain [.plain "a"] (.int 1), .plain [.plain "a"] (.int 2)] (.var "a")

/-- `{ a = 1; a = 2; }.a` -/
def progDupAttrs : Expr :=
  .select (attrsLit [("a", .int 1), ("a", .int 2)]) [.plain "a"] none

/-- `let f = x: x; in f == f` -/
def progLambdaSelfEq : Expr :=
  .letE [.plain [.plain "f"] (.lambda (.plain "x") (.var "x"))]
    (.binary .eq (.var "f") (.var "f"))

/-- `(x: x) == (x: x)` — two structurally equal lambdas in distinct cells. -/
def progLambdaTwinEq : Expr :=
  .binary .eq (.lambda (.plain "x") (.var "x")) (.lambda (.plain "x") (.var "x"))

/-- `throw == throw` — one primop value reached through the top-level scope
by both operands. -/
def progPrimopSelfEq : Expr :=
  .binary .eq (.var "throw") (.var "throw")

/-- `(1).x or 2` — selecting from a non-attribute-set with a fallback. -/
def progSelectIntOr : Expr :=
  .select (.int 1) [.plain "x"] (some (.int 2))

/-- `{ a = 1; }.b or 2` -/
def progSelectMissOr : Expr :=
  .select (attrsLit [("a", .int 1)]) [.plain "b"] (some (.int 2))

/-- `{ a = 1; }.a or 2` -/
def progSelectHitOr : Expr :=
  .select (attrsLit [("a", .int 1)]) [.plain "a"] (some (.int 2))

/-- `(throw "e").x or 2` — the walk fails by a forcing error, not a miss. -/
def progSelectThrowOr : Expr :=
  .select (.app (.var "throw") (.str [.plain "e"])) [.plain "x"]
    (some (.int 2))

/-- `{ a = 1; }.b` — a miss without a fallback. -/
def progSelectMissNoOr : Expr :=
  .select (attrsLit [("a", .int 1)]) [.plain "b"] none

/-- An arena holding a derivation-like attribute set: thunk 1 is the string
"/nix/store/abc" whose context is the store path itself, thunk 2 the set
`{ outPath = <thunk 1>; }`. -/
def stOutPath : EvalState :=
  { items :=
      [EvalThunk.value (.primop .throwOp),
       EvalThunk.value (.string "/nix/store/abc" ["/nix/store/abc"]),
       EvalThunk.value (.attrs [("outPath", 1)])]
    toplevel := [("throw", 0)] }

/-- An arena whose thunk 2 is an attribute set without `outPath`. -/
def stNoOutPath : EvalState :=
  { items :=
      [EvalThunk.value (.primop .throwOp),
       EvalThunk.value (.int 1),
       EvalThunk.value (.attrs [("a", 1)])]
    toplevel := [("throw", 0)] }

/-! ## Theorems -/

/-- Counterexample to claim C1: the expression
`with { a = 1; }; with { a = 2; }; a` does not evaluate to Int 2 — it
evaluates to Int 1. Each `with` appends its scope at the lowest priority, so
the scope of the outer `with` is consulted first. -/
theorem progWithWith_not_int_two :
    evalV 100 progWithWith = .ok (.int 1) ∧
    (Except.ok (Value.int 1) : Except EvalError Value) ≠ .ok (.int 2) := by
  constructor
  · rfl
  · simp

set_option maxHeartbeats 1000000 in
/-- Claim C1 (amended): `with { a = 1; }; with { a = 2; }; a` evaluates to
Int 1 — among `with` scopes the outermost one wins, because `append` places
each new `with` scope behind every existing scope; both stay lower priority
than lexical binders, so `let a = 1; in with { a = 2; }; a` is Int 1. -/
theorem progWithWith_outer_with_wins :
    evalV 100 progWithWith = .ok (.int 1) ∧
    evalV 100 progLetWith = .ok (.int 1) := by
  refine ⟨?_, ?_⟩ <;> rfl

set_option maxHeartbeats 1000000 in
/-- Claim C2: evaluation is lazy. `let x = throw "bang"; in 1` is Int 1 (the
unused binding is never forced); `(x: 1) (throw "bang")` is Int 1 (the unused
argument is never forced); `[ (throw "a") 2 ]` forces to a list of length 2
without error, and forcing its element 1 yields Int 2. -/
theorem laziness_unused_not_forced :
    evalV 100 progLazyLet = .ok (.int 1) ∧
    evalV 100 progLazyApply = .ok (.int 1) ∧
    evalListLen 100 progLazyList = .ok 2 ∧
    evalListElem 100 progLazyList 1 = .ok (.int 2) := by
  refine ⟨?_, ?_, ?_, ?_⟩ <;> rfl

/-- Counterexample to claim C3: forcing `let x = x; in x` terminates, but
with the reference-cycle error of `value_of`'s visited-set check, which is a
different failure from the blackhole-reentry "infinite loop" error. -/
theorem progSelfLet_not_infinite_loop :
    evalV 100 progSelfLet = .error .referenceCycle ∧
    (Except.error EvalError.referenceCycle : Except EvalError Value) ≠
      .error .infiniteLoop := by
  constructor
  · rfl
  · simp

set_option maxHeartbeats 1000000 in
/-- Claim C3 (amended): forcing `let x = x; in x` terminates and fails with
the reference-cycle error: `x` evaluates to a `Value::Ref` to its own thunk,
`get_thunk` clones the cell without installing a blackhole, and the second
visit of the same thunk id trips `value_of`'s visited set. -/
theorem progSelfLet_reference_cycle :
    evalV 100 progSelfLet = .error .referenceCycle := by
  rfl

set_option maxHeartbeats 1000000 in
/-- Counterexample to claim C4: applying the formals lambda `{ a }: a`
(no ellipsis) to `{ a = 1; b = 7; }`, whose key `b` is not among the formals,
does not fail — it succeeds with Int 1. -/
theorem progExtraArg_succeeds :
    evalV 100 (progExtraArg 7) = .ok (.int 1) := by
  rfl

set_option maxHeartbeats 1000000 in
/-- Claim C4 (amended): applying a formals-pattern lambda without ellipsis to
an attribute set containing a key not declared among the formals does not
fail: `call_lambda` never checks for extra keys (nor reads the ellipsis
flag), so the extra binding is silently ignored and — whatever value it holds
— is never forced: `({ a }: a) { a = 1; b = n; }` is Int 1 for every `n`. -/
theorem extra_formal_args_ignored :
    ∀ n : Int, evalV 100 (progExtraArg n) = .ok (.int 1) :=
  fun _ => by rfl

set_option maxHeartbeats 1000000 in
/-- Counterexample to claim C5: `let a = 1; a = 2; in a`, which binds `a`
twice at the same level, does not fail with a duplicate-attribute error — it
evaluates to Int 2. -/
theorem progDupLet_overwrites :
    evalV 100 progDupLet = .ok (.int 2) := by
  rfl

set_option maxHeartbeats 1000000 in
/-- Claim C5 (amended): binding the same attribute name twice at the same
nesting level is not an error: `push_binding` ends in a plain map `insert`,
so the later binding silently overwrites the earlier one, both in `let`
(`let a = 1; a = 2; in a` is Int 2) and in attribute sets
(`{ a = 1; a = 2; }.a` is Int 2). -/
theorem duplicate_bindings_last_wins :
    evalV 100 progDupLet = .ok (.int 2) ∧
    evalV 100 progDupAttrs = .ok (.int 2) := by
  refine ⟨?_, ?_⟩ <;> rfl

/-- Counterexample to claim C6: `let f = x: x; in f == f` does not yield
false — it yields true, through `eval_eq`'s pointer-equality shortcut (both
operands resolve to the same thunk cell). -/
theorem lambda_self_eq_true :
    evalV 100 progLambdaSelfEq = .ok (.bool true) ∧
    (Except.ok (Value.bool true) : Except EvalError Value) ≠
      .ok (.bool false) := by
  constructor
  · rfl
  · simp

set_option maxHeartbeats 1000000 in
/-- Claim C6 (amended): equality on lambda and primop values yields false for
operands held in distinct value cells — `(x: x) == (x: x)` is false — but
`eval_eq` first compares the two forced values by pointer, so two operands
that resolve to the same cell compare true: `let f = x: x; in f == f` and
`throw == throw` are both true. -/
theorem eq_pointer_shortcut_on_functions :
    evalV 100 progLambdaSelfEq = .ok (.bool true) ∧
    evalV 100 progLambdaTwinEq = .ok (.bool false) ∧
    evalV 100 progPrimopSelfEq = .ok (.bool true) := by
  refine ⟨?_, ?_, ?_⟩ <;> rfl

/-- Counterexample to claim C7: in `(1).x or 2` the forced left-hand side is
an integer, not an attribute set — yet the fallback is evaluated (yielding
Int 2) instead of an error propagating. -/
theorem select_non_attrset_takes_fallback :
    evalV 100 progSelectIntOr = .ok (.int 2) ∧
    (Except.ok (Value.int 2) : Except EvalError Value) ≠
      .error (.typeError "attrset" "int") := by
  constructor
  · rfl
  · simp

set_option maxHeartbeats 1000000 in
/-- Claim C7 (amended): the `or` fallback of a selection is taken exactly
when the attribute-path walk misses, where `sel` counts both a missing
attribute on a set and a forced component that is not an attribute set at all
as a miss: `(1).x or 2` and `{ a = 1; }.b or 2` are Int 2 while
`{ a = 1; }.a or 2` is Int 1. Errors raised while forcing a component still
propagate (`(throw "e").x or 2` fails with the thrown error), and a miss
without a fallback is the missing-attribute error (`{ a = 1; }.b`). -/
theorem select_fallback_on_any_miss :
    evalV 100 progSelectIntOr = .ok (.int 2) ∧
    evalV 100 progSelectMissOr = .ok (.int 2) ∧
    evalV 100 progSelectHitOr = .ok (.int 1) ∧
    evalV 100 progSelectThrowOr = .error (.thrown "e") ∧
    evalV 100 progSelectMissNoOr = .error (.missingAttribute "b") := by
  refine ⟨?_, ?_, ?_, ?_, ?_⟩ <;> rfl

/-- Counterexample to claim C8: the `coerce_to_string` of the main evaluator
(src/src/builtins/strings.rs) fails on an attribute set that does have an
`outPath` attribute (thunk 2 of `stOutPath`), instead of returning the
coercion of that attribute's value. -/
theorem main_coercion_rejects_outpath_set :
    coerceMainIn 100 stOutPath 2 false true = .error (.coerceError "attrset") ∧
    (Except.error (EvalError.coerceError "attrset") :
        Except EvalError (String × PathSet)) ≠
      .ok ("/nix/store/abc", ["/nix/store/abc"]) := by
  constructor
  · rfl
  · simp

set_option maxHeartbeats 1000000 in
/-- Claim C8 (amended): only the eval2 coercion (`Eval::coerce_to_string` of
src/src/eval2/string.rs) implements the attribute-set rule — a set with
`outPath` coerces to the coercion of that attribute's value, unioning its
string context into the accumulator, and a set without `outPath` fails —
while the main evaluator's coercion (src/src/builtins/strings.rs, likewise
src/src/eval/builtins/strings.rs) fails with a type-named error on every
attribute set, even one with `outPath`. -/
theorem attrset_coercion_only_in_eval2 :
    coerceE2In 100 stOutPath 2 false true =
      .ok ("/nix/store/abc", ["/nix/store/abc"]) ∧
    coerceE2In 100 stNoOutPath 2 false true =
      .error (.other
        "cannot coerce a set to a string unless it has an outPath attribute") ∧
    coerceMainIn 100 stOutPath 2 false true =
      .error (.coerceError "attrset") := by
  refine ⟨?_, ?_, ?_⟩ <;> rfl

set_option maxHeartbeats 1000000 in
/-- Claim C9: `parse_nix_path` splits on colons into `prefix=path` / `path`
entries, except that a colon inside a URI-typed path is not a separator; on
`"nixpkgs=https://github.com:foo=bar:qux=:baz"` it returns exactly
`["nixpkgs=https://github.com", "foo=bar", "qux=", "baz"]`. -/
theorem parseNixPath_spec_example :
    parseNixPath "nixpkgs=https://github.com:foo=bar:qux=:baz".toList =
      ["nixpkgs=https://github.com".toList, "foo=bar".toList, "qux=".toList,
       "baz".toList] := by
  rfl

/-- Claim C10: `substring` rejects negative starts; afterwards it slices the
string at byte range `start..min(start + max(len, 0), |s|)`. For every start
(past the sign check) that exceeds the string length this range is invalid
and the slicing panics rather than returning an error result, and for every
start within the length the slice is in bounds and the call returns the text
from `start` to that end index, carrying the original string's context. -/
theorem substring_start_bounds (start len : Int) (s : List Char)
    (ctx : PathSet) :
    (start < 0 →
      substring start len s ctx =
        .error (.other "first argument to substring must be >= 0")) ∧
    (0 ≤ start → s.length < start.toNat →
      substring start len s ctx = .ok .panicked) ∧
    (0 ≤ start → start.toNat ≤ s.length →
      substring start len s ctx =
        .ok (.ok ((s.drop start.toNat).take
          (min (start.toNat + (max 0 len).toNat) s.length - start.toNat),
          ctx))) := by
  refine ⟨fun h => ?_, fun h1 h2 => ?_, fun h1 h2 => ?_⟩
  · simp [substring, h]
  · have hnneg : ¬ start < 0 := by omega
    have hcond : ¬ (start.toNat ≤ min (start.toNat + (max 0 len).toNat)
        s.length ∧ min (start.toNat + (max 0 len).toNat) s.length ≤
        s.length) := by
      have hmin : min (start.toNat + (max 0 len).toNat) s.length ≤ s.length :=
        Nat.min_le_right _ _
      omega
    simp only [substring, rustSliceRange, if_neg hnneg, if_neg hcond]
  · have hnneg : ¬ start < 0 := by omega
    have hle : start.toNat ≤ start.toNat + (max 0 len).toNat :=
      Nat.le_add_right _ _
    have hcond : start.toNat ≤ min (start.toNat + (max 0 len).toNat)
        s.length ∧ min (start.toNat + (max 0 len).toNat) s.length ≤
        s.length := by omega
    simp [substring, rustSliceRange, hnneg, hcond]

/-- Witness for `substring_start_bounds` at concrete inputs: start 5 on the
3-character string "abc" panics; start 1, length 2 on "abcde" yields "bc". -/
theorem substring_start_bounds_witness :
    substring 5 2 "abc".toList [] = .ok .panicked ∧
    substring 1 2 "abcde".toList [] = .ok (.ok ("bc".toList, [])) := by
  constructor
  · exact (substring_start_bounds 5 2 "abc".toList []).2.1 (by decide)
      (by decide)
  · have h := (substring_start_bounds 1 2 "abcde".toList []).2.2 (by decide)
      (by decide)
    rw [h]
    rfl
